import Mathlib

/-!
Verification development for the entry-reading engine of the rs-async-zip crate:
the CRC-verifying read path (src/src/read/reader.rs), the seekable-archive reader
(src/src/read/seek.rs) and the sequential reader state machine (src/src/read/stream.rs),
embedded shallowly with machine integers as Nat and fallible or panicking code as
Option and Except values.
-/

set_option maxHeartbeats 1000000

namespace AsyncZip

/-- Compression kinds of the crate Compression enum: stored, deflate, bzip2, LZMA, zstd, XZ. -/
inductive Compression
  | stored
  | deflate
  | bz
  | lzma
  | zstd
  | xz
deriving DecidableEq, Repr

/-- Fault raised by the underlying byte source or sink: an arbitrary fault code, or the
invalid-data fault produced when drained bytes are not valid UTF-8 text. -/
inductive IoFault
  | fault (code : Nat)
  | invalidData
deriving DecidableEq, Repr

/-- Errors of the crate error type as used by the embedded code. The variants CRC32CheckError and
EntryIndexOutOfBounds appear by name in src/src/read; the error module itself is not under src/, so
the wrapping of an underlying fault (spec section 7, row I/O fault: wrapped and propagated
untouched) is carried by the UpstreamReadError variant. -/
inductive ZipError
  | CRC32CheckError
  | EntryIndexOutOfBounds
  | UpstreamReadError (e : IoFault)
deriving DecidableEq, Repr

/-- One shift-xor round of the reflected CRC-32 with polynomial 0xEDB88320. -/
def crcRound (c : Nat) : Nat :=
  if c % 2 = 1 then (c / 2) ^^^ 0xEDB88320 else c / 2

/-- Fold one input byte into a CRC-32 accumulator, as the crc32fast hasher does per byte. -/
def crc32UpdateByte (c b : Nat) : Nat :=
  crcRound (crcRound (crcRound (crcRound (crcRound (crcRound (crcRound (crcRound (c ^^^ (b % 256)))))))))

/-- Accumulator state of the crc32fast hasher. -/
abbrev Hasher := Nat

/-- Fresh hasher state, as produced by both the hasher constructor and the Default instance that
mem::take leaves behind. -/
def Hasher.new : Hasher := 0xFFFFFFFF

/-- Feed a sequence of bytes into the accumulator. -/
def Hasher.update (c : Hasher) (bs : List Nat) : Hasher :=
  bs.foldl crc32UpdateByte c

/-- Final CRC-32 value of an accumulator. -/
def Hasher.finalize (c : Hasher) : Nat := c ^^^ 0xFFFFFFFF

/-- CRC-32 checksum of a byte sequence. -/
def crc32 (bs : List Nat) : Nat :=
  Hasher.finalize (Hasher.update Hasher.new bs)

namespace ReaderMod

/-- Entry metadata as consumed by the entry reader of src/src/read/reader.rs: that reader touches
the expected checksum and the uncompressed size, both optional there (the unwrap calls at lines 50,
57 and 71 are on Option values; per spec section 3 they are absent in streaming mode before a
trailing data descriptor is read), plus the compression kind. -/
structure ZipEntry where
  compression : Compression
  crc32 : Option Nat
  uncompressed_size : Option Nat
deriving DecidableEq, Repr

/-- Outcome of one poll_read on the inner compression reader: bytes delivered into the buffer, an
I/O-kind failure, or a pending poll. -/
inductive ReadOutcome
  | ok (bytes : List Nat)
  | ioErr (e : IoFault)
  | pending
deriving DecidableEq, Repr

/-- State of the entry reader of src/src/read/reader.rs lines 17 to 23 relevant to reads: the entry
metadata, the running hasher, the consumed flag and the stream flag. -/
structure ZipEntryReader where
  entry : ZipEntry
  hasher : Hasher
  consumed : Bool
  stream : Bool
deriving DecidableEq, Repr

/-- Constructor from_raw of reader.rs lines 27 to 35: fresh hasher, consumed false, stream flag as
given by the caller (true for readers over a forward-only source). -/
def from_raw (entry : ZipEntry) (stream : Bool) : ZipEntryReader :=
  { entry := entry, hasher := Hasher.new, consumed := false, stream := stream }

/-- Effect of poll_read (reader.rs lines 103 to 118) on the reader state: an error or pending poll
returns early and leaves the state untouched; a ready read marks the consumed flag when zero new
bytes were filled, and feeds exactly the newly filled bytes into the hasher before returning. -/
def pollRead (r : ZipEntryReader) (o : ReadOutcome) : ZipEntryReader :=
  match o with
  | .ioErr _ => r
  | .pending => r
  | .ok bytes =>
    { r with
      consumed := if bytes.length = 0 then true else r.consumed,
      hasher := Hasher.update r.hasher bytes }

/-- Run a sequence of poll_read outcomes against a reader state. -/
def runReads (r : ZipEntryReader) (os : List ReadOutcome) : ZipEntryReader :=
  os.foldl pollRead r

/-- Bytes one outcome delivers to the caller: the filled bytes of a ready read, nothing for an
error or pending poll. -/
def deliveredOf : ReadOutcome → List Nat
  | .ok bytes => bytes
  | .ioErr _ => []
  | .pending => []

/-- Concatenation of all bytes a sequence of outcomes delivers to the caller. -/
def delivered (os : List ReadOutcome) : List Nat :=
  (os.map deliveredOf).flatten

/-- Whether an outcome is a zero-byte read under normal (non-error) termination. -/
def isEofRead : ReadOutcome → Bool
  | .ok bytes => bytes.isEmpty
  | .ioErr _ => false
  | .pending => false

/-- Method compare_crc of reader.rs lines 48 to 51: takes the hasher out (mem::take resets it to
the fresh state), unwraps the expected checksum (a none value models the unwrap panic) and compares
it with the finalized accumulator. -/
def compare_crc (r : ZipEntryReader) : Option (Bool × ZipEntryReader) :=
  match r.entry.crc32 with
  | none => none
  | some c => some (c == Hasher.finalize r.hasher, { r with hasher := Hasher.new })

/-- Method read_to_end_crc of reader.rs lines 56 to 65. The drain argument is what the underlying
read_to_end run observes: the decoded bytes until EOF, or an underlying fault. A none result models
an unwrap panic (absent uncompressed size at the capacity hint of line 57, or absent checksum
inside compare_crc); a fault is wrapped and returned by the question-mark operator of line 58. -/
def read_to_end_crc (r : ZipEntryReader) (drain : Except IoFault (List Nat)) :
    Option (Except ZipError (List Nat)) :=
  match r.entry.uncompressed_size with
  | none => none
  | some _ =>
    match drain with
    | .error e => some (.error (ZipError.UpstreamReadError e))
    | .ok bytes =>
      match compare_crc (runReads r [.ok bytes, .ok []]) with
      | none => none
      | some (b, _) => some (if b then .ok bytes else .error ZipError.CRC32CheckError)

/-- Method read_to_string_crc of reader.rs lines 70 to 79: as read_to_end_crc, except the drained
bytes must additionally decode as UTF-8 (the decodeOk argument); a failed decode surfaces as a
wrapped invalid-data fault from read_to_string. The produced string is modelled by its bytes. -/
def read_to_string_crc (r : ZipEntryReader) (drain : Except IoFault (List Nat)) (decodeOk : Bool) :
    Option (Except ZipError (List Nat)) :=
  match r.entry.uncompressed_size with
  | none => none
  | some _ =>
    match drain with
    | .error e => some (.error (ZipError.UpstreamReadError e))
    | .ok bytes =>
      if decodeOk then
        match compare_crc (runReads r [.ok bytes, .ok []]) with
        | none => none
        | some (b, _) => some (if b then .ok bytes else .error ZipError.CRC32CheckError)
      else some (.error (ZipError.UpstreamReadError IoFault.invalidData))

/-- Method copy_to_end_crc of reader.rs lines 90 to 99. The result of the buffered copy is
unwrapped at line 92, so an underlying fault during the copy is a panic (modelled none), not a
returned error; on a successful copy the checksum is compared as usual. The buffer size only
affects chunking, never which bytes are drained. -/
def copy_to_end_crc (r : ZipEntryReader) (drain : Except IoFault (List Nat)) (buffer : Nat) :
    Option (Except ZipError Unit) :=
  match drain with
  | .error _ => none
  | .ok bytes =>
    match compare_crc (runReads r [.ok bytes, .ok []]) with
    | none => none
    | some (b, _) => some (if b then .ok () else .error ZipError.CRC32CheckError)

/-- Drop handler of reader.rs lines 121 to 127: panics exactly when the reader came from a
forward-only (stream) source and is not fully consumed. -/
def dropPanics (r : ZipEntryReader) : Bool :=
  r.stream && !r.consumed

end ReaderMod

namespace EntryMod

/-- Modelled from the spec: the entry type of the crate entry module is not under src/. Per spec
section 3, EntryMetadata carries a filename, a compression kind, an expected checksum, compressed
and uncompressed sizes and attribute bits, with checksum and sizes reading as defaulted/zero when a
streaming writer deferred them to a trailing data descriptor (spec section 4.4, also the module
docs of src/src/read/stream.rs lines 20 to 27). -/
structure ZipEntry where
  filename : String
  compression : Compression
  crc32 : Nat
  compressed_size : Nat
  uncompressed_size : Nat
deriving DecidableEq, Repr

/-- Modelled from the spec: the stored-entry type used by the seekable reader is not under src/.
Per spec sections 3 and 4.3 it pairs the entry metadata with the recorded byte offset of the entry
data within the source. -/
structure StoredZipEntry where
  entry : ZipEntry
  dataOffset : Nat
deriving DecidableEq, Repr

/-- Archive metadata of the crate file module as constructed field by field in
src/src/file/builder.rs line 17: an ordered entry sequence, a zip64 flag and a comment. -/
structure ZipFile where
  entries : List StoredZipEntry
  zip64 : Bool
  comment : String
deriving DecidableEq, Repr

/-- Modelled from the spec: the entry-reader type of the read io entry module and its constructors
are not under src/. Per spec sections 4.1 and 4.2, construction selects one of six decode
strategies by compression kind over a source pre-bounded (a Take wrapper) to the byte count passed
as the size argument, and exists in an owned and a borrowed variant. The model records the
selected compression kind, the Take bound and the ownership mode. -/
structure EntryReaderSpec where
  compression : Compression
  takeBound : Nat
  owned : Bool
deriving DecidableEq, Repr

/-- Modelled from the spec: the owned constructor new_with_owned wraps an owned source bounded to
size bytes and dispatches on the compression kind. -/
def new_with_owned (compression : Compression) (size : Nat) : EntryReaderSpec :=
  { compression := compression, takeBound := size, owned := true }

/-- Modelled from the spec: the mutably borrowing constructor new_with_borrow, identical except for
the ownership mode. -/
def new_with_borrow (compression : Compression) (size : Nat) : EntryReaderSpec :=
  { compression := compression, takeBound := size, owned := false }

end EntryMod

namespace Seek

/-- Position state of the shared seekable byte source. -/
structure SeekSource where
  pos : Nat
deriving DecidableEq, Repr

/-- The seekable-reader state of src/src/read/seek.rs lines 35 to 38: the shared source and the
parsed archive metadata. -/
structure ZipFileReader where
  reader : SeekSource
  file : EntryMod.ZipFile
deriving DecidableEq, Repr

/-- Modelled from the spec: seek_to_data_offset on a stored entry is not under src/; per spec
section 4.3 it repositions the shared source to the recorded data offset of the entry (skipping
the local header, whose exact length a minimal read at that offset determines). -/
def seek_to_data_offset (se : EntryMod.StoredZipEntry) (s : SeekSource) : SeekSource :=
  { pos := se.dataOffset }

/-- Method entry of src/src/read/seek.rs lines 92 to 104: bounds-check through a get on the entry
sequence, failing with EntryIndexOutOfBounds before any mutation; on success seek the shared source
to the entry data offset and construct a borrowing entry reader from the compression kind of the
entry and, as the code passes it at line 102, the uncompressed size of the entry. Returns the
updated reader state alongside the result. -/
def entry (z : ZipFileReader) (index : Nat) :
    ZipFileReader × Except ZipError EntryMod.EntryReaderSpec :=
  match z.file.entries[index]? with
  | none => (z, .error ZipError.EntryIndexOutOfBounds)
  | some stored_entry =>
    ({ z with reader := seek_to_data_offset stored_entry z.reader },
     .ok (EntryMod.new_with_borrow stored_entry.entry.compression
       stored_entry.entry.uncompressed_size))

/-- Method into_entry of src/src/read/seek.rs lines 108 to 123: the same bounds check and the same
seek, but consumes the reader and hands the source to an owned entry reader built, as the code
passes it at line 121, from the same compression kind and the same uncompressed size. -/
def into_entry (z : ZipFileReader) (index : Nat) :
    Except ZipError (SeekSource × EntryMod.EntryReaderSpec) :=
  match z.file.entries[index]? with
  | none => .error ZipError.EntryIndexOutOfBounds
  | some stored_entry =>
    .ok (seek_to_data_offset stored_entry z.reader,
      EntryMod.new_with_owned stored_entry.entry.compression
        stored_entry.entry.uncompressed_size)

/-- Observable behaviour of entry: the error, or the resulting source position together with the
compression kind and the Take bound of the produced entry reader. -/
def entryObs (z : ZipFileReader) (index : Nat) : Except ZipError (Nat × Compression × Nat) :=
  match entry z index with
  | (_, .error e) => .error e
  | (z1, .ok s) => .ok (z1.reader.pos, s.compression, s.takeBound)

/-- Observable behaviour of into_entry, projected the same way. -/
def intoEntryObs (z : ZipFileReader) (index : Nat) : Except ZipError (Nat × Compression × Nat) :=
  match into_entry z index with
  | .error e => .error e
  | .ok (src, s) => .ok (src.pos, s.compression, s.takeBound)

end Seek

namespace Stream

/-- Method next_entry of the Ready state (src/src/read/stream.rs lines 75 to 85), parameterized by
the outcome of the local-file-header parse (that parser is the external collaborator of spec
section 6 and is not under src/): a parse failure propagates; reaching the central directory yields
none; otherwise an owned entry reader is constructed from the compression kind of the parsed entry
and, as the code passes it at line 82, its uncompressed size. -/
def next_entry (lfh : Except ZipError (Option EntryMod.ZipEntry)) :
    Except ZipError (Option (EntryMod.EntryReaderSpec × EntryMod.ZipEntry)) :=
  match lfh with
  | .error e => .error e
  | .ok none => .ok none
  | .ok (some entry) =>
    .ok (some (EntryMod.new_with_owned entry.compression entry.uncompressed_size, entry))

/-- Reading-state inner entry reader, abstracted to the decoded bytes it has not yet delivered. -/
structure ReadingState where
  remaining : List Nat
deriving DecidableEq, Repr

/-- One read call with a one-byte buffer on the inner entry reader: the byte count filled and the
rest of the stream. -/
def read1 (bs : List Nat) : Nat × List Nat :=
  match bs with
  | [] => (0, [])
  | _ :: rest => (1, rest)

/-- Method done of the Reading state (src/src/read/stream.rs lines 103 to 109): reads one byte; a
nonzero read fails with ZipError.CRC32CheckError (the line carries a CHANGE marker in the source),
otherwise the reader returns to the Ready state. -/
def done (st : ReadingState) : Except ZipError Unit :=
  if (read1 st.remaining).1 ≠ 0 then .error ZipError.CRC32CheckError
  else .ok ()

end Stream

/-- Deflate entry whose compressed and uncompressed sizes differ, used to exercise the construction
bound of the entry readers. -/
def deflateEntry : EntryMod.ZipEntry :=
  { filename := "a.txt", compression := Compression.deflate, crc32 := 305419896,
    compressed_size := 10, uncompressed_size := 100 }

/-- One-entry archive over a seekable source, with the entry data recorded at offset 40. -/
def deflateArchive : Seek.ZipFileReader :=
  { reader := { pos := 0 },
    file := { entries := [{ entry := deflateEntry, dataOffset := 40 }],
              zip64 := false, comment := "" } }

/-- Stored entry whose metadata fields are all present, as parsed from a central directory. -/
def storedEntryFull : ReaderMod.ZipEntry :=
  { compression := Compression.stored, crc32 := some 0, uncompressed_size := some 0 }

/-- Streaming-mode entry whose checksum and uncompressed size were deferred to a trailing data
descriptor and are therefore absent. -/
def streamingEntryDeferred : ReaderMod.ZipEntry :=
  { compression := Compression.stored, crc32 := none, uncompressed_size := none }

theorem Hasher.update_nil (c : Hasher) : Hasher.update c [] = c := rfl

theorem Hasher.update_append (c : Hasher) (a b : List Nat) :
    Hasher.update (Hasher.update c a) b = Hasher.update c (a ++ b) := by
  simp [Hasher.update, List.foldl_append]

namespace ReaderMod

theorem pollRead_hasher (r : ZipEntryReader) (o : ReadOutcome) :
    (pollRead r o).hasher = Hasher.update r.hasher (deliveredOf o) := by
  cases o <;> simp [pollRead, deliveredOf, Hasher.update]

theorem pollRead_entry (r : ZipEntryReader) (o : ReadOutcome) :
    (pollRead r o).entry = r.entry := by
  cases o <;> rfl

theorem pollRead_stream (r : ZipEntryReader) (o : ReadOutcome) :
    (pollRead r o).stream = r.stream := by
  cases o <;> rfl

theorem pollRead_consumed (r : ZipEntryReader) (o : ReadOutcome) :
    (pollRead r o).consumed = (r.consumed || isEofRead o) := by
  cases o with
  | ok bytes => cases bytes <;> simp [pollRead, isEofRead]
  | ioErr e => simp [pollRead, isEofRead]
  | pending => simp [pollRead, isEofRead]

theorem runReads_cons (r : ZipEntryReader) (o : ReadOutcome) (os : List ReadOutcome) :
    runReads r (o :: os) = runReads (pollRead r o) os := rfl

theorem runReads_hasher (r : ZipEntryReader) (os : List ReadOutcome) :
    (runReads r os).hasher = Hasher.update r.hasher (delivered os) := by
  induction os generalizing r with
  | nil => simp [runReads, delivered, Hasher.update]
  | cons o os ih =>
    rw [runReads_cons, ih, pollRead_hasher, Hasher.update_append]
    simp [delivered]

theorem runReads_consumed (r : ZipEntryReader) (os : List ReadOutcome) :
    (runReads r os).consumed = (r.consumed || os.any isEofRead) := by
  induction os generalizing r with
  | nil => simp [runReads]
  | cons o os ih =>
    rw [runReads_cons, ih, pollRead_consumed]
    simp [Bool.or_assoc]

theorem runReads_stream (r : ZipEntryReader) (os : List ReadOutcome) :
    (runReads r os).stream = r.stream := by
  induction os generalizing r with
  | nil => rfl
  | cons o os ih => rw [runReads_cons, ih, pollRead_stream]

theorem runReads_entry (r : ZipEntryReader) (os : List ReadOutcome) :
    (runReads r os).entry = r.entry := by
  induction os generalizing r with
  | nil => rfl
  | cons o os ih => rw [runReads_cons, ih, pollRead_entry]

theorem compare_crc_none (r : ZipEntryReader) (hc : r.entry.crc32 = none) :
    compare_crc r = none := by
  simp [compare_crc, hc]

theorem compare_crc_some (r : ZipEntryReader) (c : Nat) (hc : r.entry.crc32 = some c) :
    compare_crc r = some (c == Hasher.finalize r.hasher, { r with hasher := Hasher.new }) := by
  simp [compare_crc, hc]

theorem read_to_end_crc_eval (e : ZipEntry) (c u : Nat) (stream : Bool) (bytes : List Nat)
    (hc : e.crc32 = some c) (hu : e.uncompressed_size = some u) :
    read_to_end_crc (from_raw e stream) (Except.ok bytes)
      = some (if c == crc32 bytes then Except.ok bytes
          else Except.error ZipError.CRC32CheckError) := by
  have hent : (runReads (from_raw e stream) [ReadOutcome.ok bytes, ReadOutcome.ok []]).entry = e :=
    runReads_entry ..
  have hhash : (runReads (from_raw e stream) [ReadOutcome.ok bytes, ReadOutcome.ok []]).hasher
      = Hasher.update Hasher.new bytes := by
    rw [runReads_hasher]
    simp [delivered, deliveredOf, from_raw]
  have hcc := compare_crc_some (runReads (from_raw e stream) [ReadOutcome.ok bytes, ReadOutcome.ok []])
    c (by rw [hent]; exact hc)
  rw [hhash] at hcc
  have h1 : (from_raw e stream).entry = e := rfl
  simp only [read_to_end_crc, h1, hu]
  rw [hcc]
  simp [crc32]

/-- C5: for every entry reader and every sequence of poll outcomes, the running checksum
accumulator equals the CRC-32 state over exactly the concatenation of all bytes delivered to the
caller so far: each produced byte is fed to the hasher before the read returns, and error or
pending polls feed nothing. -/
theorem C5_hasher_tracks_delivered_bytes (e : ZipEntry) (stream : Bool)
    (os : List ReadOutcome) :
    (runReads (from_raw e stream) os).hasher = Hasher.update Hasher.new (delivered os) := by
  rw [runReads_hasher]
  rfl

/-- C6: after any sequence of polls from a fresh reader, the fully-consumed flag is set exactly
when some poll returned zero bytes under normal (non-error) termination, and an error poll leaves
the reader state, consumed flag included, unchanged. -/
theorem C6_consumed_iff_zero_byte_read (e : ZipEntry) (stream : Bool)
    (os : List ReadOutcome) (r : ZipEntryReader) (fault : IoFault) :
    ((runReads (from_raw e stream) os).consumed = os.any isEofRead)
    ∧ pollRead r (ReadOutcome.ioErr fault) = r := by
  constructor
  · rw [runReads_consumed]
    rfl
  · rfl

/-- C7: releasing a reader after any sequence of polls panics in the drop handler exactly when the
reader was constructed for a forward-only (stream) source and is not fully consumed, and a reader
constructed for a seekable source never panics on drop. -/
theorem C7_drop_discipline (e : ZipEntry) (os : List ReadOutcome) :
    (dropPanics (runReads (from_raw e true) os) = !(runReads (from_raw e true) os).consumed)
    ∧ dropPanics (runReads (from_raw e false) os) = false := by
  constructor
  · unfold dropPanics
    rw [runReads_stream]
    rfl
  · unfold dropPanics
    rw [runReads_stream]
    rfl

/-- C3: for an entry with its checksum and uncompressed size present, as parsed from a well-formed
archive, read_to_end_crc on a drain yielding the decoded bytes succeeds with exactly those bytes
iff the stored checksum equals the CRC-32 computed over them, and fails with the checksum-mismatch
error CRC32CheckError whenever they differ. -/
theorem C3_read_to_end_crc_iff_crc_matches (e : ZipEntry) (c u : Nat) (stream : Bool)
    (bytes : List Nat) (hc : e.crc32 = some c) (hu : e.uncompressed_size = some u) :
    (read_to_end_crc (from_raw e stream) (Except.ok bytes) = some (Except.ok bytes)
      ↔ c = crc32 bytes)
    ∧ (c ≠ crc32 bytes →
      read_to_end_crc (from_raw e stream) (Except.ok bytes)
        = some (Except.error ZipError.CRC32CheckError)) := by
  have heval := read_to_end_crc_eval e c u stream bytes hc hu
  by_cases hmatch : c = crc32 bytes
  · rw [heval]
    simp [hmatch]
  · rw [heval]
    simp [hmatch]

/-- Witness for C3 at a stored entry with checksum 0 and an empty decoded stream, whose CRC-32 is
0. -/
theorem C3_witness :
    read_to_end_crc (from_raw storedEntryFull false) (Except.ok [])
      = some (Except.ok []) := by
  have h := C3_read_to_end_crc_iff_crc_matches storedEntryFull 0 0 false [] rfl rfl
  exact h.1.mpr (by decide)

/-- C4: evaluation at the failing input: an underlying fault during copy_to_end_crc is unwrapped
(reader.rs line 92) and panics (modelled none) instead of being returned to the caller, while the
same fault during read_to_end_crc is wrapped as UpstreamReadError and returned. -/
theorem C4_copy_unwraps_io_fault :
    copy_to_end_crc (from_raw storedEntryFull false)
      (Except.error (IoFault.fault 5)) 65536 = none
    ∧ read_to_end_crc (from_raw storedEntryFull false) (Except.error (IoFault.fault 5))
      = some (Except.error (ZipError.UpstreamReadError (IoFault.fault 5))) :=
  ⟨rfl, rfl⟩

/-- C10: for an entry whose expected checksum or uncompressed size is absent, as streaming mode
permits before a trailing data descriptor is read, compare_crc panics on its unwrap whenever the
checksum is absent, and read_to_end_crc and read_to_string_crc panic (modelled none) rather than
return a result on any successfully drained byte sequence. -/
theorem C10_absent_metadata_panics (e : ZipEntry) (stream : Bool) (bytes : List Nat)
    (h : e.crc32 = none ∨ e.uncompressed_size = none) :
    (e.crc32 = none → compare_crc (from_raw e stream) = none)
    ∧ read_to_end_crc (from_raw e stream) (Except.ok bytes) = none
    ∧ read_to_string_crc (from_raw e stream) (Except.ok bytes) true = none := by
  have h1 : (from_raw e stream).entry = e := rfl
  refine ⟨fun hc => compare_crc_none _ (by rw [h1]; exact hc), ?_, ?_⟩
  · rcases hu : e.uncompressed_size with _ | u
    · simp only [read_to_end_crc, h1, hu]
    · rcases h with hc | hc
      · have hcc := compare_crc_none
          (runReads (from_raw e stream) [ReadOutcome.ok bytes, ReadOutcome.ok []])
          (by rw [runReads_entry, h1]; exact hc)
        simp only [read_to_end_crc, h1, hu, hcc]
      · rw [hc] at hu
        cases hu
  · rcases hu : e.uncompressed_size with _ | u
    · simp only [read_to_string_crc, h1, hu]
    · rcases h with hc | hc
      · have hcc := compare_crc_none
          (runReads (from_raw e stream) [ReadOutcome.ok bytes, ReadOutcome.ok []])
          (by rw [runReads_entry, h1]; exact hc)
        simp only [read_to_string_crc, h1, hu, hcc, if_true]
      · rw [hc] at hu
        cases hu

/-- Witness for C10 at an entry with both the checksum and the uncompressed size absent. -/
theorem C10_witness :
    compare_crc (from_raw streamingEntryDeferred false) = none
    ∧ read_to_end_crc (from_raw streamingEntryDeferred false) (Except.ok [7]) = none := by
  have h := C10_absent_metadata_panics streamingEntryDeferred false [7] (Or.inl rfl)
  exact ⟨h.1 rfl, h.2.1⟩

end ReaderMod

/-- C1: evaluation at the failing input: for a deflate entry with compressed size 10 and
uncompressed size 100, both the seek-mode entry constructor and the stream-mode next_entry hand
the entry reader a length bound of 100 (the uncompressed size), not the compressed-size byte count
10 that the spec prescribes. -/
theorem C1_take_bound_is_uncompressed_size :
    (Seek.entry deflateArchive 0).2
      = Except.ok { compression := Compression.deflate, takeBound := 100, owned := false }
    ∧ Stream.next_entry (Except.ok (some deflateEntry))
      = Except.ok (some ({ compression := Compression.deflate, takeBound := 100, owned := true },
          deflateEntry))
    ∧ deflateEntry.compressed_size = 10
    ∧ deflateEntry.uncompressed_size = 100 :=
  ⟨rfl, rfl, rfl, rfl⟩

/-- C2: evaluation at the failing input: done on a Reading state with one unread byte (value 7)
fails with ZipError.CRC32CheckError, the same error kind that signals a checksum mismatch, not a
distinct consistency error. -/
theorem C2_done_reuses_checksum_error :
    Stream.done { remaining := [7] } = Except.error ZipError.CRC32CheckError := rfl

/-- C8: entry fails with the index-out-of-bounds error exactly when the index is not below the
number of entries, leaving the reader state unchanged on that failure; for a valid index it
repositions the source to the recorded data offset of that entry and returns a borrowing entry
reader; and it leaves the archive metadata unchanged in every case, so entries may be requested in
any order and repeatedly. -/
theorem C8_entry_bounds_check (z : Seek.ZipFileReader) (i : Nat) :
    ((Seek.entry z i).2 = Except.error ZipError.EntryIndexOutOfBounds
      ↔ z.file.entries.length ≤ i)
    ∧ (z.file.entries.length ≤ i → (Seek.entry z i).1 = z)
    ∧ (∀ se, z.file.entries[i]? = some se →
        (Seek.entry z i).1.reader.pos = se.dataOffset
        ∧ (Seek.entry z i).2 = Except.ok (EntryMod.new_with_borrow se.entry.compression
            se.entry.uncompressed_size))
    ∧ (Seek.entry z i).1.file = z.file := by
  rcases hg : z.file.entries[i]? with _ | se
  · have hlen : z.file.entries.length ≤ i := List.getElem?_eq_none_iff.mp hg
    refine ⟨by simp [Seek.entry, hg, hlen], fun _ => by simp [Seek.entry, hg], ?_,
      by simp [Seek.entry, hg]⟩
    intro se hse
    cases hse
  · have hlt : i < z.file.entries.length := (List.getElem?_eq_some_iff.mp hg).1
    refine ⟨?_, fun hle => absurd hlt (Nat.not_lt.mpr hle), ?_, by simp [Seek.entry, hg]⟩
    · constructor
      · intro habs
        simp [Seek.entry, hg] at habs
      · intro hle
        exact absurd hlt (Nat.not_lt.mpr hle)
    · intro se2 hse2
      injection hse2 with he
      subst he
      constructor
      · simp [Seek.entry, hg, Seek.seek_to_data_offset]
      · simp [Seek.entry, hg]

/-- Witness for C8 on the one-entry deflate archive: index 1 is out of bounds and leaves the state
unchanged, index 0 seeks to the recorded offset 40. -/
theorem C8_witness :
    (Seek.entry deflateArchive 1).1 = deflateArchive
    ∧ (Seek.entry deflateArchive 0).1.reader.pos = 40 := by
  refine ⟨(C8_entry_bounds_check deflateArchive 1).2.1 (by decide), ?_⟩
  exact ((C8_entry_bounds_check deflateArchive 0).2.2.1
    { entry := deflateEntry, dataOffset := 40 } rfl).1

/-- C9: into_entry behaves identically to entry apart from source ownership: the same bounds check
with the same error, the same resulting source position, and an entry reader with the same
compression kind and the same length bound; only the ownership mode differs (borrowed for entry,
owned for into_entry). -/
theorem C9_into_entry_matches_entry (z : Seek.ZipFileReader) (i : Nat) :
    Seek.entryObs z i = Seek.intoEntryObs z i
    ∧ (Seek.entry z i).2.map EntryMod.EntryReaderSpec.owned
        = (Seek.entry z i).2.map (fun _ => false)
    ∧ (Seek.into_entry z i).map (fun p => p.2.owned)
        = (Seek.into_entry z i).map (fun _ => true) := by
  rcases hg : z.file.entries[i]? with _ | se <;>
    simp [Seek.entryObs, Seek.intoEntryObs, Seek.entry, Seek.into_entry, hg,
      EntryMod.new_with_borrow, EntryMod.new_with_owned, Except.map]

end AsyncZip
